import Mathlib

/-!
# Verification of `cpu.py` — an 8-register, 256-byte-memory virtual CPU

This file gives a shallow embedding of the execution engine in `src/cpu.py`:
the `CPU` state (memory, registers, flags, program counter, the separate
`sp` attribute, and the cached `operand_a`/`operand_b` bytes), the `alu`,
every instruction handler method, the `branch_table` dictionary built in
`__init__` (kept exactly as written, including its duplicate key), and the
body of one iteration of the `run` fetch-decode-execute loop.

Python lists of a fixed length are modelled as functions `Fin n → Int`
together with Python's indexing rule: an index `i` with `0 ≤ i < n` is used
directly, an index with `-n ≤ i < 0` counts from the end, and anything else
raises `IndexError`.  Python integers are unbounded, so cells and registers
hold `Int` and no arithmetic is reduced modulo anything unless the source
does it (it does not).  Fallible operations return `Except PyErr _`.
-/

/-- Runtime errors the embedded Python fragments can raise. -/
inductive PyErr where
  | indexError
  | typeError
  | keyError
  | exc (msg : String)
deriving DecidableEq

/-- Python list-index resolution for a list of length `n`: indices in
`[0, n)` are used as-is, indices in `[-n, 0)` count from the end, and all
others are invalid (`none`, which the accessors turn into `IndexError`). -/
def pyIdx (n : Nat) (i : Int) : Option (Fin n) :=
  if h : 0 ≤ i ∧ i < (n : Int) then
    some ⟨i.toNat, by omega⟩
  else if h2 : -(n : Int) ≤ i ∧ i < 0 then
    some ⟨(i + (n : Int)).toNat, by omega⟩
  else none

/-- Python list read `a[i]` on a list `a` of length `n`. -/
def pyGet {n : Nat} (a : Fin n → Int) (i : Int) : Except PyErr Int :=
  match pyIdx n i with
  | some j => .ok (a j)
  | none => .error .indexError

/-- Python list write `a[i] = v` on a list `a` of length `n`, returning the updated list. -/
def pySet {n : Nat} (a : Fin n → Int) (i : Int) (v : Int) :
    Except PyErr (Fin n → Int) :=
  match pyIdx n i with
  | some j => .ok (Function.update a j v)
  | none => .error .indexError

theorem pyGet_ok {n : Nat} {a : Fin n → Int} {i v : Int}
    (h : pyGet a i = .ok v) : ∃ j, pyIdx n i = some j ∧ v = a j := by
  unfold pyGet at h
  cases hj : pyIdx n i with
  | none => rw [hj] at h; cases h
  | some j => rw [hj] at h; cases h; exact ⟨j, rfl, rfl⟩

theorem pyGet_of_idx {n : Nat} (a : Fin n → Int) {i : Int} {j : Fin n}
    (h : pyIdx n i = some j) : pyGet a i = .ok (a j) := by
  unfold pyGet; rw [h]

theorem pySet_ok {n : Nat} {a : Fin n → Int} {i v : Int} {r : Fin n → Int}
    (h : pySet a i v = .ok r) :
    ∃ j, pyIdx n i = some j ∧ r = Function.update a j v := by
  unfold pySet at h
  cases hj : pyIdx n i with
  | none => rw [hj] at h; cases h
  | some j => rw [hj] at h; cases h; exact ⟨j, rfl, rfl⟩

theorem pySet_of_idx {n : Nat} (a : Fin n → Int) (v : Int) {i : Int} {j : Fin n}
    (h : pyIdx n i = some j) : pySet a i v = .ok (Function.update a j v) := by
  unfold pySet; rw [h]

/-- Reading back the slot a successful `pySet` just wrote yields the written
value, whatever the (possibly negative) Python index was. -/
theorem pySet_pyGet_same {n : Nat} {a : Fin n → Int} {i v : Int}
    {r : Fin n → Int} (h : pySet a i v = .ok r) : pyGet r i = .ok v := by
  obtain ⟨j, hj, hr⟩ := pySet_ok h
  rw [pyGet_of_idx r hj, hr, Function.update_same]

/-- The state held by a `CPU` instance: the fields set in `CPU.__init__`.
`ram` is the 256-cell memory, `reg` the 8 registers, `sp` the *separate*
stack-pointer attribute (`self.sp`), `equals`/`lessThan`/`greaterThan` the
comparison flags (Python ints), and `operand_a`/`operand_b` the operand
bytes cached by the run loop.  `output` records the values printed so far
(`print` calls append to it). -/
structure CPU where
  ram : Fin 256 → Int
  reg : Fin 8 → Int
  pc : Int
  sp : Int
  greaterThan : Int
  lessThan : Int
  equals : Int
  running : Bool
  operand_a : Int
  operand_b : Int
  output : List Int

namespace CPU

/-- Method `CPU.__init__`: 256 zeroed ram cells, 8 zeroed registers, `pc = 0`,
then `self.sp = self.reg[7]` (capturing the value 0 *before* the next
line), then `self.reg[7] = 0xF4`, flags 0, `running = False`. -/
def init : CPU :=
  let reg0 : Fin 8 → Int := fun _ => 0
  { ram := fun _ => 0
    reg := Function.update reg0 ⟨7, by omega⟩ 0xF4
    pc := 0
    sp := reg0 ⟨7, by omega⟩
    greaterThan := 0
    lessThan := 0
    equals := 0
    running := false
    operand_a := 0
    operand_b := 0
    output := [] }

/-- Method `CPU.alu(op, reg_a, reg_b)`, with the operation selected by string
comparison exactly as in the source.  `ADD`/`MUL`/`INC`/`DEC` perform the
plain Python integer operation on `self.reg[reg_a]` (no reduction modulo
256 appears in the source); `CMP` zeroes the three flags and then runs the
`if/elif/elif` chain, incrementing exactly one flag; any other string
raises `Exception("Unsupported ALU operation")`. -/
def alu (op : String) (reg_a reg_b : Int) (s : CPU) : Except PyErr CPU :=
  if op = "ADD" then
    match pyGet s.reg reg_a with
    | .error e => .error e
    | .ok va =>
      match pyGet s.reg reg_b with
      | .error e => .error e
      | .ok vb =>
        match pySet s.reg reg_a (va + vb) with
        | .error e => .error e
        | .ok r => .ok { s with reg := r }
  else if op = "MUL" then
    match pyGet s.reg reg_a with
    | .error e => .error e
    | .ok va =>
      match pyGet s.reg reg_b with
      | .error e => .error e
      | .ok vb =>
        match pySet s.reg reg_a (va * vb) with
        | .error e => .error e
        | .ok r => .ok { s with reg := r }
  else if op = "CMP" then
    let s := { s with equals := 0, lessThan := 0, greaterThan := 0 }
    match pyGet s.reg reg_a with
    | .error e => .error e
    | .ok va =>
      match pyGet s.reg reg_b with
      | .error e => .error e
      | .ok vb =>
        if va = vb then .ok { s with equals := s.equals + 1 }
        else if va < vb then .ok { s with lessThan := s.lessThan + 1 }
        else if va > vb then .ok { s with greaterThan := s.greaterThan + 1 }
        else .ok s
  else if op = "INC" then
    match pyGet s.reg reg_a with
    | .error e => .error e
    | .ok va =>
      match pySet s.reg reg_a (va + 1) with
      | .error e => .error e
      | .ok r => .ok { s with reg := r }
  else if op = "DEC" then
    match pyGet s.reg reg_a with
    | .error e => .error e
    | .ok va =>
      match pySet s.reg reg_a (va - 1) with
      | .error e => .error e
      | .ok r => .ok { s with reg := r }
  else .error (.exc "Unsupported ALU operation")

/-- Method `CPU.INC`: `self.alu("INC", operand_a, operand_b)` then `self.pc += 2`. -/
def INC (s : CPU) : Except PyErr CPU :=
  match alu "INC" s.operand_a s.operand_b s with
  | .error e => .error e
  | .ok t => .ok { t with pc := t.pc + 2 }

/-- Method `CPU.DEC`: the source's body calls `self.alu("INC", ...)` — the `"INC"`
tag, not `"DEC"` — then `self.pc += 2`. -/
def DEC (s : CPU) : Except PyErr CPU :=
  match alu "INC" s.operand_a s.operand_b s with
  | .error e => .error e
  | .ok t => .ok { t with pc := t.pc + 2 }

/-- Python's built-in `ord` applied to the value of `self.operand_a`.
`ord` accepts only a one-character string; `operand_a` always holds an
`int` read from ram, so the call raises `TypeError`. -/
def ordOfInt (_v : Int) : Except PyErr Int := .error .typeError

/-- Method `CPU.PRA`: `print(ord(self.operand_a))`.  It never touches `self.reg`
and never advances `self.pc`; since `operand_a` is an int, `ord` raises
`TypeError` before anything is printed. -/
def PRA (s : CPU) : Except PyErr CPU :=
  match ordOfInt s.operand_a with
  | .error e => .error e
  | .ok v => .ok { s with output := s.output ++ [v] }

/-- Method `CPU.JMP`: `self.pc = self.reg[operand_a]`. -/
def JMP (s : CPU) : Except PyErr CPU :=
  match pyGet s.reg s.operand_a with
  | .error e => .error e
  | .ok address => .ok { s with pc := address }

/-- Method `CPU.JNE`: if `not self.equals` (flag is 0) jump to `self.reg[operand_a]`,
else `self.pc += 2`. -/
def JNE (s : CPU) : Except PyErr CPU :=
  if s.equals = 0 then
    match pyGet s.reg s.operand_a with
    | .error e => .error e
    | .ok address => .ok { s with pc := address }
  else .ok { s with pc := s.pc + 2 }

/-- Method `CPU.JEQ`: if `self.equals` is truthy (nonzero) jump to
`self.reg[operand_a]`, else `self.pc += 2`. -/
def JEQ (s : CPU) : Except PyErr CPU :=
  if s.equals ≠ 0 then
    match pyGet s.reg s.operand_a with
    | .error e => .error e
    | .ok address => .ok { s with pc := address }
  else .ok { s with pc := s.pc + 2 }

/-- Method `CPU.ST`: `self.ram[self.reg[operand_a]] = self.reg[operand_b]`.
No program-counter update appears in the source. -/
def ST (s : CPU) : Except PyErr CPU :=
  match pyGet s.reg s.operand_b with
  | .error e => .error e
  | .ok value =>
    match pyGet s.reg s.operand_a with
    | .error e => .error e
    | .ok address =>
      match pySet s.ram address value with
      | .error e => .error e
      | .ok r => .ok { s with ram := r }

/-- Method `CPU.ADD`: `self.alu("ADD", operand_a, operand_b)` then `self.pc += 3`. -/
def ADD (s : CPU) : Except PyErr CPU :=
  match alu "ADD" s.operand_a s.operand_b s with
  | .error e => .error e
  | .ok t => .ok { t with pc := t.pc + 3 }

/-- Method `CPU.RET`: read `self.ram[self.sp]`, increment `self.sp`, and store the
read value into `self.pc`. -/
def RET (s : CPU) : Except PyErr CPU :=
  match pyGet s.ram s.sp with
  | .error e => .error e
  | .ok next_instruction =>
    .ok { s with sp := s.sp + 1, pc := next_instruction }

/-- Method `CPU.CALL`: `next_instruction = self.pc + 2`; `self.sp -= 1`;
`self.ram[self.sp] = next_instruction`; `self.pc = self.reg[operand_a]`. -/
def CALL (s : CPU) : Except PyErr CPU :=
  let next_instruction := s.pc + 2
  match pySet s.ram (s.sp - 1) next_instruction with
  | .error e => .error e
  | .ok r =>
    match pyGet s.reg s.operand_a with
    | .error e => .error e
    | .ok target => .ok { s with sp := s.sp - 1, ram := r, pc := target }

/-- Method `CPU.POP`: `value = self.ram[self.sp]`; `self.reg[operand_a] = value`;
`self.sp += 1`; `self.pc += 2`. -/
def POP (s : CPU) : Except PyErr CPU :=
  match pyGet s.ram s.sp with
  | .error e => .error e
  | .ok value =>
    match pySet s.reg s.operand_a value with
    | .error e => .error e
    | .ok r => .ok { s with reg := r, sp := s.sp + 1, pc := s.pc + 2 }

/-- Method `CPU.PUSH`: `self.sp -= 1`; `self.ram[self.sp] = self.reg[operand_a]`;
`self.pc += 2`. -/
def PUSH (s : CPU) : Except PyErr CPU :=
  match pyGet s.reg s.operand_a with
  | .error e => .error e
  | .ok value =>
    match pySet s.ram (s.sp - 1) value with
    | .error e => .error e
    | .ok r => .ok { s with sp := s.sp - 1, ram := r, pc := s.pc + 2 }

/-- Method `CPU.HLT`: `self.running = False`; the program counter is not moved. -/
def HLT (s : CPU) : Except PyErr CPU :=
  .ok { s with running := false }

/-- Method `CPU.LDI`: `self.reg[operand_a] = operand_b`; `self.pc += 3`. -/
def LDI (s : CPU) : Except PyErr CPU :=
  match pySet s.reg s.operand_a s.operand_b with
  | .error e => .error e
  | .ok r => .ok { s with reg := r, pc := s.pc + 3 }

/-- Method `CPU.PRN`: `print(self.reg[operand_a])`; `self.pc += 2`. -/
def PRN (s : CPU) : Except PyErr CPU :=
  match pyGet s.reg s.operand_a with
  | .error e => .error e
  | .ok v => .ok { s with output := s.output ++ [v], pc := s.pc + 2 }

/-- Method `CPU.MUL`: `self.alu("MUL", operand_a, operand_b)` then `self.pc += 3`. -/
def MUL (s : CPU) : Except PyErr CPU :=
  match alu "MUL" s.operand_a s.operand_b s with
  | .error e => .error e
  | .ok t => .ok { t with pc := t.pc + 3 }

/-- Method `CPU.CMP`: `self.alu("CMP", operand_a, operand_b)` then `self.pc += 3`. -/
def CMP (s : CPU) : Except PyErr CPU :=
  match alu "CMP" s.operand_a s.operand_b s with
  | .error e => .error e
  | .ok t => .ok { t with pc := t.pc + 3 }

/-- The method a `branch_table` entry refers to. -/
inductive Mnemonic where
  | HLT | LDI | PRN | MUL | PUSH | POP | CALL | RET | ADD | ST
  | JMP | CMP | JNE | JEQ | PRA | INC | DEC
deriving DecidableEq

/-- The key/value pairs of the `branch_table` dict literal in `CPU.__init__`,
in source order.  Note the last two entries: both `INC` and `DEC` are
written under the same key `0b01100101`. -/
def branch_table_entries : List (Int × Mnemonic) :=
  [(0b00000001, .HLT),
   (0b10000010, .LDI),
   (0b01000111, .PRN),
   (0b10100010, .MUL),
   (0b01000101, .PUSH),
   (0b01000110, .POP),
   (0b01010000, .CALL),
   (0b00010001, .RET),
   (0b10100000, .ADD),
   (0b10000100, .ST),
   (0b01010100, .JMP),
   (0b10100111, .CMP),
   (0b01010110, .JNE),
   (0b01010101, .JEQ),
   (0b01001000, .PRA),
   (0b01100101, .INC),
   (0b01100101, .DEC)]

/-- One binding of a Python dict display: a later binding for the same key
overwrites the earlier one. -/
def dictInsert (d : Int → Option Mnemonic) (kv : Int × Mnemonic) :
    Int → Option Mnemonic :=
  fun i => if i = kv.1 then some kv.2 else d i

/-- Method `self.branch_table` as the dict built from the literal's bindings in
order; a missing key means `KeyError` at the lookup site. -/
def branch_table : Int → Option Mnemonic :=
  branch_table_entries.foldl dictInsert (fun _ => none)

/-- Dispatch from a `Mnemonic` to the handler method it names. -/
def runMnemonic : Mnemonic → CPU → Except PyErr CPU
  | .HLT => HLT
  | .LDI => LDI
  | .PRN => PRN
  | .MUL => MUL
  | .PUSH => PUSH
  | .POP => POP
  | .CALL => CALL
  | .RET => RET
  | .ADD => ADD
  | .ST => ST
  | .JMP => JMP
  | .CMP => CMP
  | .JNE => JNE
  | .JEQ => JEQ
  | .PRA => PRA
  | .INC => INC
  | .DEC => DEC

/-- Method `CPU.ram_read(mar)`: `self.ram[mar]`. -/
def ram_read (s : CPU) (mar : Int) : Except PyErr Int :=
  pyGet s.ram mar

/-- One iteration of the `while self.running` body of `CPU.run`:
`ir = self.ram[self.pc]`; `self.operand_a = self.ram_read(self.pc + 1)`;
`self.operand_b = self.ram_read(self.pc + 2)`; then
`self.branch_table[ir]()`.  Both operand reads happen before dispatch,
whatever the opcode is; an `ir` missing from the dict raises `KeyError`. -/
def step (s : CPU) : Except PyErr CPU :=
  match pyGet s.ram s.pc with
  | .error e => .error e
  | .ok ir =>
    match ram_read s (s.pc + 1) with
    | .error e => .error e
    | .ok a =>
      match ram_read s (s.pc + 2) with
      | .error e => .error e
      | .ok b =>
        let s1 := { s with operand_a := a, operand_b := b }
        match branch_table ir with
        | none => .error .keyError
        | some m => runMnemonic m s1

end CPU

/-! ## Claim theorems -/

theorem pyGet_none {n : Nat} (a : Fin n → Int) {i : Int}
    (h : pyIdx n i = none) : pyGet a i = .error .indexError := by
  unfold pyGet; rw [h]

/-- State with register 0 holding 255, used to exercise the ALU at the
wraparound boundary. -/
def c1s : CPU := { CPU.init with reg := Function.update CPU.init.reg 0 255 }

/-- Claim C1 as stated is false: the ALU performs no reduction modulo 256.
At a concrete state with register 0 holding 255, the `"INC"` ALU operation
leaves 256 in the register, while the claim demands `(255 + 1) % 256 = 0`. -/
theorem C1_alu_no_wrap_counterexample :
    ∃ t, CPU.alu "INC" 0 0 c1s = .ok t ∧
      pyGet t.reg 0 = .ok 256 ∧ ((255 + 1) % 256 : Int) = 0 := by
  exact ⟨(CPU.alu "INC" 0 0 c1s).toOption.getD c1s, rfl, rfl, by decide⟩

/-- Claim C1 (amended): the ALU arithmetic operations compute with
unbounded Python integers and store the exact result — after `ADD`
register A holds `a + b` (not `(a + b) % 256`), after `MUL` it holds
`a * b`, after `INC` it holds `a + 1` (so 255 becomes 256, not 0), and
after `DEC` it holds `a - 1` (so 0 becomes -1, not 255); no overflow is
ever escalated to an error — each operation returns normally. -/
theorem C1_alu_exact_arith (s : CPU) (ia ib va vb : Int)
    (ha : pyGet s.reg ia = .ok va) (hb : pyGet s.reg ib = .ok vb) :
    (∃ t, CPU.alu "ADD" ia ib s = .ok t ∧ pyGet t.reg ia = .ok (va + vb)) ∧
    (∃ t, CPU.alu "MUL" ia ib s = .ok t ∧ pyGet t.reg ia = .ok (va * vb)) ∧
    (∃ t, CPU.alu "INC" ia ib s = .ok t ∧ pyGet t.reg ia = .ok (va + 1)) ∧
    (∃ t, CPU.alu "DEC" ia ib s = .ok t ∧ pyGet t.reg ia = .ok (va - 1)) := by
  obtain ⟨ja, hja, hva⟩ := pyGet_ok ha
  refine ⟨⟨{ s with reg := Function.update s.reg ja (va + vb) }, ?_, ?_⟩,
          ⟨{ s with reg := Function.update s.reg ja (va * vb) }, ?_, ?_⟩,
          ⟨{ s with reg := Function.update s.reg ja (va + 1) }, ?_, ?_⟩,
          ⟨{ s with reg := Function.update s.reg ja (va - 1) }, ?_, ?_⟩⟩
  · simp only [CPU.alu, reduceIte, ha, hb, pySet_of_idx s.reg (va + vb) hja]; try rfl
  · exact pySet_pyGet_same (pySet_of_idx s.reg (va + vb) hja)
  · simp only [CPU.alu, reduceIte, ha, hb, pySet_of_idx s.reg (va * vb) hja]; try rfl
  · exact pySet_pyGet_same (pySet_of_idx s.reg (va * vb) hja)
  · simp only [CPU.alu, reduceIte, ha, pySet_of_idx s.reg (va + 1) hja]; try rfl
  · exact pySet_pyGet_same (pySet_of_idx s.reg (va + 1) hja)
  · simp only [CPU.alu, reduceIte, ha, pySet_of_idx s.reg (va - 1) hja]; try rfl
  · exact pySet_pyGet_same (pySet_of_idx s.reg (va - 1) hja)

/-- Concrete state for the C1 witness: register 0 holds 7, register 1 holds 5. -/
def c1w0 : CPU :=
  { CPU.init with reg := Function.update (Function.update CPU.init.reg 0 7) 1 5 }

theorem C1_alu_exact_arith_witness :
    pyGet c1w0.reg 0 = .ok 7 ∧ pyGet c1w0.reg 1 = .ok 5 ∧
    (∃ t, CPU.alu "ADD" 0 1 c1w0 = .ok t ∧ pyGet t.reg 0 = .ok 12) := by
  have h := C1_alu_exact_arith c1w0 0 1 7 5 rfl rfl
  exact ⟨rfl, rfl, h.1⟩

/-- Looking a key up in a dict built by folding bindings over `dictInsert`
finds one of the bindings, or falls through to the initial dict. -/
theorem lookup_foldl (l : List (Int × CPU.Mnemonic)) (d : Int → Option CPU.Mnemonic)
    (op : Int) (m : CPU.Mnemonic)
    (h : (l.foldl CPU.dictInsert d) op = some m) : (op, m) ∈ l ∨ d op = some m := by
  induction l generalizing d with
  | nil => exact Or.inr h
  | cons kv l ih =>
    rcases ih (CPU.dictInsert d kv) h with h1 | h1
    · exact Or.inl (List.mem_cons_of_mem kv h1)
    · unfold CPU.dictInsert at h1
      by_cases he : op = kv.1
      · rw [if_pos he] at h1
        cases h1
        exact Or.inl (by rw [he]; exact List.mem_cons_self kv l)
      · rw [if_neg he] at h1
        exact Or.inr h1

/-- Claim C2 is false of the source: the `branch_table` dict literal
registers both `INC` and `DEC` under the same opcode byte `0b01100101`, so
the key list is not duplicate-free, the later `DEC` binding silently
shadows `INC`, and no opcode at all dispatches to `INC`. -/
theorem C2_branch_table_collision :
    ¬ (CPU.branch_table_entries.map Prod.fst).Nodup ∧
    CPU.branch_table 0b01100101 = some CPU.Mnemonic.DEC ∧
    ∀ op : Int, ¬ CPU.branch_table op = some CPU.Mnemonic.INC := by
  refine ⟨by decide, by decide, ?_⟩
  intro op h
  rcases lookup_foldl _ _ _ _ h with h1 | h1
  · have hop : op = 0b01100101 := by
      simp only [CPU.branch_table_entries, List.mem_cons, List.not_mem_nil] at h1
      rcases h1 with h2|h2|h2|h2|h2|h2|h2|h2|h2|h2|h2|h2|h2|h2|h2|h2|h2|h2 <;>
        simp_all
    subst hop
    have hd : CPU.branch_table 0b01100101 = some CPU.Mnemonic.DEC := by decide
    rw [hd] at h
    cases h
  · cases h1

/-- Claim C3 is false of the source: `self.sp = self.reg[7]` copies the
value 0 out of register 7 *before* `self.reg[7] = 0xF4` runs, so the stack
pointer used by every stack operation is the separate `sp` attribute,
initialized to 0 — not register 7.  A `PUSH` from the freshly constructed
state moves `sp` from 0 to -1 (so the write lands at Python index -1,
i.e. cell 255) and leaves register 7 untouched at 244. -/
theorem C3_sp_separate_from_reg7 :
    CPU.init.reg 7 = 0xF4 ∧ CPU.init.sp = 0 ∧
    (∃ t, CPU.PUSH CPU.init = .ok t ∧ t.sp = -1 ∧ t.reg 7 = 0xF4 ∧
      pyGet t.ram (-1) = .ok (CPU.init.reg 0)) := by
  refine ⟨rfl, rfl, (CPU.PUSH CPU.init).toOption.getD CPU.init, rfl, rfl, rfl, rfl⟩

/-- Claim C4 is false of the source for `ST` (and `PRA`/`HLT`): the `ST`
handler performs its memory write but never moves the program counter, so
after a successful `ST` the pc still holds the address of the `ST`
instruction itself, not that address plus 3. -/
theorem C4_ST_pc_unchanged (s t : CPU) (h : CPU.ST s = .ok t) : t.pc = s.pc := by
  unfold CPU.ST at h
  split at h
  · cases h
  · split at h
    · cases h
    · split at h
      · cases h
      · cases h; rfl

/-- Concrete state for the C4 witness: `ST` with operand registers 0 and 1,
register 0 holding address 10 and register 1 holding value 65. -/
def c4w0 : CPU :=
  { CPU.init with
      operand_a := 0
      operand_b := 1
      reg := Function.update (Function.update CPU.init.reg 0 10) 1 65 }

def c4w1 : CPU := (CPU.ST c4w0).toOption.getD c4w0

theorem C4_ST_pc_unchanged_witness : c4w1.pc = c4w0.pc :=
  C4_ST_pc_unchanged c4w0 c4w1 rfl


/-- Claim C5: after a successful `CMP` of register values `va` and `vb`,
exactly one of the three comparison flags holds 1 and the other two hold
0 — `equals` iff `va = vb`, else `lessThan` iff `va < vb`, else
`greaterThan`. -/
theorem C5_cmp_exactly_one_flag (s t : CPU) (va vb : Int)
    (ha : pyGet s.reg s.operand_a = .ok va)
    (hb : pyGet s.reg s.operand_b = .ok vb)
    (h : CPU.CMP s = .ok t) :
    ((t.equals = 1 ∧ t.lessThan = 0 ∧ t.greaterThan = 0) ∨
     (t.equals = 0 ∧ t.lessThan = 1 ∧ t.greaterThan = 0) ∨
     (t.equals = 0 ∧ t.lessThan = 0 ∧ t.greaterThan = 1)) ∧
    (t.equals = 1 ↔ va = vb) ∧
    (t.lessThan = 1 ↔ va < vb) ∧
    (t.greaterThan = 1 ↔ vb < va) := by
  unfold CPU.CMP CPU.alu at h
  simp +decide only [reduceIte, ha, hb] at h
  split_ifs at h with h1 h2 h3 <;>
    [skip; skip; skip; omega] <;>
    simp only [Except.ok.injEq] at h <;>
    subst h <;> dsimp only <;> omega

/-- Concrete state for the C5 witness: `CMP` comparing register 0 and
register 1, both holding 3. -/
def c5w0 : CPU :=
  { CPU.init with
      operand_a := 0
      operand_b := 1
      reg := Function.update (Function.update CPU.init.reg 0 3) 1 3 }

def c5w1 : CPU := (CPU.CMP c5w0).toOption.getD c5w0

theorem C5_cmp_exactly_one_flag_witness :
    c5w1.equals = 1 ∧ c5w1.lessThan = 0 ∧ c5w1.greaterThan = 0 := by
  obtain ⟨hd, he, hl, hg⟩ := C5_cmp_exactly_one_flag c5w0 c5w1 3 3 rfl rfl rfl
  have h1 : c5w1.equals = 1 := he.mpr rfl
  rcases hd with h2 | h2 | h2 <;> omega

/-- Concrete state for C6: `DEC` targeting register 0, which holds 5. -/
def c6s : CPU :=
  { CPU.init with
      operand_a := 0
      reg := Function.update CPU.init.reg 0 5 }

/-- Claim C6 is false of the source: the `DEC` handler's body invokes the
ALU with the `"INC"` tag, so executing `DEC` on a register holding 5
stores 6 back, while the claim demands `(5 - 1) % 256 = 4`. -/
theorem C6_DEC_increments :
    ∃ t, CPU.DEC c6s = .ok t ∧ pyGet t.reg 0 = .ok 6 ∧ ((5 - 1) % 256 : Int) = 4 :=
  ⟨(CPU.DEC c6s).toOption.getD c6s, rfl, rfl, by decide⟩

/-- Claim C7: a successful `CALL` at address `pc` pushes `pc + 2` — the
address of the instruction after the two-byte `CALL` — at `sp - 1`, and a
`RET` executed from any later state whose stack pointer and memory are
unchanged pops that address back into the program counter and restores
the stack pointer to its pre-`CALL` value. -/
theorem C7_call_ret_roundtrip (s s1 s2 : CPU)
    (hcall : CPU.CALL s = .ok s1)
    (hsp : s2.sp = s1.sp) (hram : s2.ram = s1.ram) :
    ∃ s3, CPU.RET s2 = .ok s3 ∧ s3.pc = s.pc + 2 ∧ s3.sp = s.sp := by
  cases hps : pySet s.ram (s.sp - 1) (s.pc + 2) with
  | error e => simp only [CPU.CALL, hps] at hcall; cases hcall
  | ok r =>
    cases hpg : pyGet s.reg s.operand_a with
    | error e => simp only [CPU.CALL, hps, hpg] at hcall; cases hcall
    | ok target =>
      simp only [CPU.CALL, hps, hpg, Except.ok.injEq] at hcall
      subst hcall
      dsimp only at hsp hram
      have hread : pyGet s2.ram s2.sp = .ok (s.pc + 2) := by
        rw [hram, hsp]; exact pySet_pyGet_same hps
      refine ⟨{ s2 with sp := s2.sp + 1, pc := s.pc + 2 }, ?_, rfl, ?_⟩
      · unfold CPU.RET
        rw [hread]
      · dsimp only
        omega

/-- Concrete state for the C7 witness: `CALL` through register 0 (holding
target 100) at `pc = 20` with `sp = 244`. -/
def c7w0 : CPU :=
  { CPU.init with
      operand_a := 0
      sp := 244
      pc := 20
      reg := Function.update CPU.init.reg 0 100 }

def c7w1 : CPU := (CPU.CALL c7w0).toOption.getD c7w0

theorem C7_call_ret_roundtrip_witness :
    ∃ s3, CPU.RET c7w1 = .ok s3 ∧ s3.pc = c7w0.pc + 2 ∧ s3.sp = c7w0.sp :=
  C7_call_ret_roundtrip c7w0 c7w1 c7w1 rfl rfl rfl

/-- Claim C8: a successful `PUSH` of a register followed immediately by
`POP` into the same register restores all registers (the popped value is
the pushed one) and returns the stack pointer to its pre-push value. -/
theorem C8_push_pop_roundtrip (s s1 : CPU) (hpush : CPU.PUSH s = .ok s1) :
    ∃ s2, CPU.POP s1 = .ok s2 ∧ s2.reg = s.reg ∧ s2.sp = s.sp := by
  cases hv : pyGet s.reg s.operand_a with
  | error e => simp only [CPU.PUSH, hv] at hpush; cases hpush
  | ok value =>
    cases hr : pySet s.ram (s.sp - 1) value with
    | error e => simp only [CPU.PUSH, hv, hr] at hpush; cases hpush
    | ok r =>
      simp only [CPU.PUSH, hv, hr, Except.ok.injEq] at hpush
      subst hpush
      obtain ⟨j, hj, hvj⟩ := pyGet_ok hv
      refine ⟨{ s with
          sp := s.sp - 1 + 1
          ram := r
          pc := s.pc + 2 + 2
          reg := Function.update s.reg j value }, ?_, ?_, ?_⟩
      · unfold CPU.POP
        simp only [pySet_pyGet_same hr, pySet_of_idx s.reg value hj]
      · dsimp only
        rw [hvj, Function.update_eq_self]
      · dsimp only
        omega

/-- Concrete state for the C8 witness: `PUSH` register 3 (holding 42) with
`sp = 244`. -/
def c8w0 : CPU :=
  { CPU.init with
      operand_a := 3
      sp := 244
      reg := Function.update CPU.init.reg 3 42 }

def c8w1 : CPU := (CPU.PUSH c8w0).toOption.getD c8w0

theorem C8_push_pop_roundtrip_witness :
    ∃ s2, CPU.POP c8w1 = .ok s2 ∧ s2.reg = c8w0.reg ∧ s2.sp = c8w0.sp :=
  C8_push_pop_roundtrip c8w0 c8w1 rfl

/-- Claim C9 is false of the source: `PRA` calls `ord` on the integer
operand byte — never reading the addressed register at all, and in the
direction opposite to the intended `chr` — so every `PRA` execution
raises `TypeError` instead of emitting the character whose code point is
the register's value. -/
theorem C9_PRA_raises_TypeError (s : CPU) : CPU.PRA s = .error .typeError := rfl

/-- Claim C10: every iteration of the run loop reads the two operand bytes
at `pc + 1` and `pc + 2` before dispatching, whatever the opcode is, so
fetching from address 254 or 255 reads past address 255 and raises
`IndexError` instead of completing — for any memory contents whatsoever. -/
theorem C10_fetch_reads_oob (s : CPU) (h : s.pc = 254 ∨ s.pc = 255) :
    CPU.step s = .error .indexError := by
  unfold CPU.step CPU.ram_read
  rcases h with h | h <;> rw [h] <;> rfl

/-- Concrete state for the C10 witness: a freshly constructed CPU about to
fetch from address 255 (where a 0-operand `HLT` would sit). -/
def c10w : CPU := { CPU.init with pc := 255 }

theorem C10_fetch_reads_oob_witness : CPU.step c10w = .error .indexError :=
  C10_fetch_reads_oob c10w (Or.inr rfl)
